import Mathlib

/-!
Verification of the PayWay asynchronous charge-processing pipeline.

The definitions below are a shallow embedding of the repository's source:
  * `src/utils/queue.js`   — in-memory FIFO queue (`enqueue`, `dequeue`);
  * `src/utils/worker.js`  — `processJob` (the Settlement Procedure) and the
    `setInterval` tick body of `startWorker` (the Worker Loop);
  * `src/routes/charges.js` — the Charge API Facade routes: charge creation,
    retrieval, metadata update and capture;
  * the `charges` table schema — `id VARCHAR(255) PRIMARY KEY`, so an
    `INSERT` of a duplicate id fails with a primary-key violation while
    leaving the table unchanged, and an `UPDATE` matching zero rows is a
    no-op, not an error.

The Charge Store is a list of rows; each `db.query` statement of the source
is embedded as a function on that list.  A `Faults` record says which store
operations fail with a "store unavailable" error, letting the error-handling
claims quantify over store failures; `noFaults` is the fault-free run.
-/

namespace PayWay

/-- A row of the `charges` table (columns of the schema that the pipeline
touches; `created_at` is a store-side default and is never read or written
by the embedded operations). -/
structure Charge where
  id : String
  merchant_id : String
  amount : Int
  currency : String
  status : String
  description : String
  metadata : Option String
deriving Repr, DecidableEq

/-- The `charges` table: a list of rows, in insertion order. -/
abbrev Store := List Charge

/-- The `data` field of a queue job, built by the Facade in
`src/routes/charges.js` (`{ ...charge, source }`).  `source` is `Option`
because the HTTP body may omit it. -/
structure JobData where
  id : String
  merchant_id : String
  amount : Int
  currency : String
  description : String
  source : Option String
deriving Repr, DecidableEq

/-- A queue job: `{ type: 'process_charge', data: {...} }`. -/
structure Job where
  type : String
  data : JobData
deriving Repr, DecidableEq

/-- The in-memory queue of `src/utils/queue.js`: a JS array used with
`push` (enqueue at the tail) and `shift` (dequeue at the head). -/
abbrev Queue := List Job

/-- The `enqueue(job)` operation: `queue.push(job)` — appends at the tail;
total, never blocks, never rejects. -/
def enqueue (q : Queue) (j : Job) : Queue :=
  q ++ [j]

/-- The `dequeue()` operation: `queue.shift()` — returns the head (or
`undefined`, here `none`, when empty) and leaves the rest of the queue. -/
def dequeue (q : Queue) : Option Job × Queue :=
  (q.head?, q.tail)

/-- An operation performed on the queue by its two callers: the Facade
enqueues, the Worker Loop dequeues. -/
inductive QOp where
  | enq (j : Job)
  | deq
deriving Repr, DecidableEq

/-- History of a queue run: current queue contents, all jobs ever enqueued
(in order), and all jobs returned by successful dequeues (in order). -/
structure QTrace where
  queue : Queue
  enqueued : List Job
  dequeued : List Job
deriving Repr, DecidableEq

/-- One queue operation applied to a history. -/
def qstep (t : QTrace) : QOp → QTrace
  | .enq j =>
      { t with queue := enqueue t.queue j, enqueued := t.enqueued ++ [j] }
  | .deq =>
      match dequeue t.queue with
      | (none, q) => { t with queue := q }
      | (some j, q) => { t with queue := q, dequeued := t.dequeued ++ [j] }

/-- Run a sequence of queue operations from the empty queue. -/
def runOps (ops : List QOp) : QTrace :=
  ops.foldl qstep ⟨[], [], []⟩

lemma qstep_inv (t : QTrace) (op : QOp)
    (h : t.enqueued = t.dequeued ++ t.queue) :
    (qstep t op).enqueued = (qstep t op).dequeued ++ (qstep t op).queue := by
  cases op with
  | enq j =>
      simp [qstep, enqueue, h, List.append_assoc]
  | deq =>
      cases hq : t.queue with
      | nil => simpa [qstep, dequeue, hq] using h
      | cons j rest =>
          simp only [qstep, dequeue, hq, List.head?_cons, List.tail_cons]
          rw [h, hq, List.append_assoc]
          rfl

lemma foldl_qstep_inv (ops : List QOp) (t : QTrace)
    (h : t.enqueued = t.dequeued ++ t.queue) :
    (ops.foldl qstep t).enqueued
      = (ops.foldl qstep t).dequeued ++ (ops.foldl qstep t).queue := by
  induction ops generalizing t with
  | nil => simpa using h
  | cons op ops ih =>
      simp only [List.foldl_cons]
      exact ih (qstep t op) (qstep_inv t op h)

/-- Claim C5: the queue is FIFO.  `enqueue` appends at the tail and is a
total function (never blocks or rejects), `dequeue` removes and returns the
head, and over any sequence of operations from the empty queue the list of
jobs ever enqueued equals the list of dequeued jobs followed by the jobs
still queued — so jobs are dequeued in exactly their enqueue order, and in
particular a job enqueued strictly before another is dequeued before it. -/
theorem queue_fifo_contract :
    (∀ (q : Queue) (j : Job), enqueue q j = q ++ [j])
    ∧ (∀ q : Queue, dequeue q = (q.head?, q.tail))
    ∧ (∀ ops : List QOp,
        (runOps ops).enqueued = (runOps ops).dequeued ++ (runOps ops).queue) := by
  refine ⟨fun q j => rfl, fun q => rfl, fun ops => ?_⟩
  exact foldl_qstep_inv ops ⟨[], [], []⟩ rfl

/-- Is a row with this `id` already present?  (`id` is the table's primary
key.) -/
def hasChargeId (s : Store) (id : String) : Bool :=
  s.any (fun r => r.id == id)

/-- An `INSERT INTO charges(...) VALUES (...)` statement: fails when the store is
unavailable (`fault`) or when the primary key `id` is already taken;
otherwise appends the row.  A failed insert leaves the store unchanged. -/
def insertQuery (fault : Bool) (s : Store) (c : Charge) : Except String Store :=
  if fault then .error "store unavailable"
  else if hasChargeId s c.id then .error "duplicate key violates primary key"
  else .ok (s ++ [c])

/-- The effect of `UPDATE charges SET status = $1 WHERE id = $2`
(`src/utils/worker.js` line 20): every row matching the `id` — and only the
`id`; the statement has no `merchant_id` condition — gets the new status. -/
def updateWhereId (s : Store) (id status : String) : Store :=
  s.map (fun r => if r.id == id then { r with status := status } else r)

/-- Running the worker's status `UPDATE`: fails only when the store is
unavailable; matching zero rows is a no-op, not an error. -/
def updateStatusQuery (fault : Bool) (s : Store) (id status : String) :
    Except String Store :=
  if fault then .error "store unavailable"
  else .ok (updateWhereId s id status)

/-- Comparison definition written from the spec's words, not the source:
"all writes are scoped by `(charge_id, merchant_id)`" — a status update
that touches only rows matching both the charge id and the merchant id. -/
def updateStatusScopedSpec (s : Store) (id mid status : String) : Store :=
  s.map (fun r =>
    if r.id == id && r.merchant_id == mid then { r with status := status } else r)

/-- JS falsiness of the `source` value: `undefined` (absent) and the empty
string are falsy. -/
def jsFalsyStr : Option String → Bool
  | none => true
  | some v => v == ""

/-- The validation test of `src/utils/worker.js` line 9:
`!source || source !== 'valid_token'`. -/
def sourceInvalid (src : Option String) : Bool :=
  jsFalsyStr src || src != some "valid_token"

/-- The row the worker inserts for a job
(`INSERT INTO charges(id, merchant_id, amount, currency, status,
description)`); `metadata` is not in the column list, so it gets the
store's default `NULL`. -/
def chargeRow (d : JobData) (status : String) : Charge :=
  { id := d.id, merchant_id := d.merchant_id, amount := d.amount,
    currency := d.currency, status := status, description := d.description,
    metadata := none }

/-- Which store operations of one settlement run fail with
"store unavailable".  The fault-free run is `noFaults`. -/
structure Faults where
  pendingInsert : Bool
  statusUpdate : Bool
  failedInsert : Bool
deriving Repr, DecidableEq

def noFaults : Faults := ⟨false, false, false⟩

/-- Result of one `processJob` run: the store snapshots after each
successful write (in order), the final store, and whether the async
function resolved (`ok`) or rejected with an uncaught error. -/
structure ProcOutcome where
  writes : List Store
  store : Store
  result : Except String Unit
deriving Repr

/-- The `catch` block of `processJob` (`src/utils/worker.js` lines 21-24):
insert the charge with status `failed`.  This `await db.query` is not
itself inside a `try`, so if it fails the error escapes `processJob`. -/
def catchFailedInsert (f : Faults) (d : JobData) (writes : List Store)
    (s : Store) : ProcOutcome :=
  match insertQuery f.failedInsert s (chargeRow d "failed") with
  | .error e => ⟨writes, s, .error e⟩
  | .ok s1 => ⟨writes ++ [s1], s1, .ok ()⟩

/-- The Settlement Procedure, `processJob` of `src/utils/worker.js`:
only `process_charge` jobs are handled; the `try` block validates the
source, inserts the `pending` row, waits 2000 ms (no store effect) and
updates the status to `succeeded`; any error thrown in the `try` block runs
the `catch` block. -/
def processJob (f : Faults) (job : Job) (s : Store) : ProcOutcome :=
  if job.type == "process_charge" then
    let d := job.data
    if sourceInvalid d.source then
      catchFailedInsert f d [] s
    else
      match insertQuery f.pendingInsert s (chargeRow d "pending") with
      | .error _ => catchFailedInsert f d [] s
      | .ok s1 =>
          match updateStatusQuery f.statusUpdate s1 d.id "succeeded" with
          | .error _ => catchFailedInsert f d [s1] s1
          | .ok s2 => ⟨[s1, s2], s2, .ok ()⟩
  else ⟨[], s, .ok ()⟩

/-- A `SELECT * FROM charges WHERE id = $1` lookup restricted to the first
match (`rows[0]` semantics on a primary-key lookup). -/
def findChargeById (s : Store) (id : String) : Option Charge :=
  s.find? (fun r => r.id == id)

/-- The status a client observes for a charge id in a store state:
`none` while no row exists. -/
def statusOf (s : Store) (id : String) : Option String :=
  (findChargeById s id).map Charge.status

lemma hasChargeId_cons (c : Charge) (s : Store) (id : String) :
    hasChargeId (c :: s) id = ((c.id == id) || hasChargeId s id) := by
  simp [hasChargeId]

lemma findChargeById_not_present (s : Store) (id : String)
    (h : hasChargeId s id = false) : findChargeById s id = none := by
  induction s with
  | nil => rfl
  | cons c s ih =>
      rw [hasChargeId_cons, Bool.or_eq_false_iff] at h
      rw [findChargeById, List.find?_cons_of_neg _ (by simp [h.1]),
        ← findChargeById]
      exact ih h.2

lemma findChargeById_append (s t : Store) (id : String)
    (h : hasChargeId s id = false) :
    findChargeById (s ++ t) id = findChargeById t id := by
  induction s with
  | nil => rfl
  | cons c s ih =>
      rw [hasChargeId_cons, Bool.or_eq_false_iff] at h
      rw [List.cons_append, findChargeById,
        List.find?_cons_of_neg _ (by simp [h.1]), ← findChargeById]
      exact ih h.2

lemma updateWhereId_not_present (s : Store) (id st : String)
    (h : hasChargeId s id = false) : updateWhereId s id st = s := by
  induction s with
  | nil => rfl
  | cons c s ih =>
      rw [hasChargeId_cons, Bool.or_eq_false_iff] at h
      rw [updateWhereId, List.map_cons, if_neg (by simp [h.1]), ← updateWhereId,
        ih h.2]

lemma updateWhereId_append (s t : Store) (id st : String) :
    updateWhereId (s ++ t) id st
      = updateWhereId s id st ++ updateWhereId t id st := by
  simp [updateWhereId]

lemma sourceInvalid_iff (src : Option String) :
    sourceInvalid src = true ↔ src ≠ some "valid_token" := by
  cases src with
  | none => simp [sourceInvalid, jsFalsyStr]
  | some v =>
      by_cases h : v = "valid_token" <;>
        simp [sourceInvalid, jsFalsyStr, h]

lemma findChargeById_singleton (c : Charge) (id : String)
    (h : (c.id == id) = true) : findChargeById [c] id = some c := by
  simp [findChargeById, List.find?, h]

lemma insertQuery_fresh (s : Store) (c : Charge)
    (h : hasChargeId s c.id = false) :
    insertQuery false s c = .ok (s ++ [c]) := by
  simp [insertQuery, h]

/-- The fault-free settlement of a valid-token job on a store where the
charge id is fresh: the `pending` row carrying the job's fields is written
first, then its status becomes `succeeded`. -/
lemma processJob_valid_eq (d : JobData) (s : Store)
    (hsrc : sourceInvalid d.source = false)
    (hfresh : hasChargeId s d.id = false) :
    processJob noFaults ⟨"process_charge", d⟩ s
      = ⟨[s ++ [chargeRow d "pending"],
          s ++ [{ chargeRow d "pending" with status := "succeeded" }]],
         s ++ [{ chargeRow d "pending" with status := "succeeded" }],
         .ok ()⟩ := by
  have hins : insertQuery false s (chargeRow d "pending")
      = .ok (s ++ [chargeRow d "pending"]) :=
    insertQuery_fresh s _ hfresh
  have hupd : updateWhereId (s ++ [chargeRow d "pending"]) d.id "succeeded"
      = s ++ [{ chargeRow d "pending" with status := "succeeded" }] := by
    rw [updateWhereId_append, updateWhereId_not_present s _ _ hfresh]
    simp [updateWhereId, chargeRow]
  simp [processJob, hsrc, noFaults, hins, updateStatusQuery, hupd]

/-- Claim C1: a `process_charge` job whose source is the accepted sentinel
`valid_token` settles by first inserting the `pending` row with the job's
id, merchant id, amount, currency and description, then updating that
charge to `succeeded`; the observable status sequence for the charge id is
`none → pending → succeeded` (never `none → succeeded`), and the final
store holds the charge as `succeeded` with the original amount. -/
theorem valid_charge_settles_through_pending
    (d : JobData) (s : Store)
    (hsrc : d.source = some "valid_token")
    (hfresh : hasChargeId s d.id = false) :
    processJob noFaults ⟨"process_charge", d⟩ s
      = ⟨[s ++ [chargeRow d "pending"],
          s ++ [{ chargeRow d "pending" with status := "succeeded" }]],
         s ++ [{ chargeRow d "pending" with status := "succeeded" }],
         .ok ()⟩
    ∧ (s :: (processJob noFaults ⟨"process_charge", d⟩ s).writes).map
        (fun st => statusOf st d.id)
      = [none, some "pending", some "succeeded"]
    ∧ (findChargeById (processJob noFaults ⟨"process_charge", d⟩ s).store
        d.id).map Charge.amount = some d.amount := by
  have hsi : sourceInvalid d.source = false := by
    rw [hsrc]; decide
  have heq := processJob_valid_eq d s hsi hfresh
  have hwrites : (processJob noFaults ⟨"process_charge", d⟩ s).writes
      = [s ++ [chargeRow d "pending"],
         s ++ [{ chargeRow d "pending" with status := "succeeded" }]] := by
    rw [heq]
  have hstore : (processJob noFaults ⟨"process_charge", d⟩ s).store
      = s ++ [{ chargeRow d "pending" with status := "succeeded" }] := by
    rw [heq]
  have hfind1 : findChargeById (s ++ [chargeRow d "pending"]) d.id
      = some (chargeRow d "pending") := by
    rw [findChargeById_append s _ d.id hfresh,
      findChargeById_singleton _ _ (by simp [chargeRow])]
  have hfind2 : findChargeById
      (s ++ [{ chargeRow d "pending" with status := "succeeded" }]) d.id
      = some { chargeRow d "pending" with status := "succeeded" } := by
    rw [findChargeById_append s _ d.id hfresh,
      findChargeById_singleton _ _ (by simp [chargeRow])]
  refine ⟨heq, ?_, ?_⟩
  · rw [hwrites]
    simp only [List.map_cons, List.map_nil, statusOf]
    rw [findChargeById_not_present s d.id hfresh, hfind1, hfind2]
    simp [chargeRow]
  · rw [hstore, hfind2]
    simp [chargeRow]

/-- Witness for C1 at a concrete job (Scenario 1 of the spec). -/
theorem valid_charge_settles_through_pending_witness :
    (⟨"ch_1", "m_1", 500, "usd", "card", some "valid_token"⟩ : JobData).source
        = some "valid_token"
    ∧ hasChargeId [] "ch_1" = false
    ∧ (processJob noFaults
          ⟨"process_charge", ⟨"ch_1", "m_1", 500, "usd", "card",
            some "valid_token"⟩⟩ []
        = ⟨[[] ++ [chargeRow
              ⟨"ch_1", "m_1", 500, "usd", "card", some "valid_token"⟩
              "pending"],
            [] ++ [{ chargeRow
              ⟨"ch_1", "m_1", 500, "usd", "card", some "valid_token"⟩
              "pending" with status := "succeeded" }]],
           [] ++ [{ chargeRow
              ⟨"ch_1", "m_1", 500, "usd", "card", some "valid_token"⟩
              "pending" with status := "succeeded" }],
           .ok ()⟩
      ∧ (([] : Store) :: (processJob noFaults
            ⟨"process_charge", ⟨"ch_1", "m_1", 500, "usd", "card",
              some "valid_token"⟩⟩ []).writes).map
          (fun st => statusOf st "ch_1")
        = [none, some "pending", some "succeeded"]
      ∧ (findChargeById (processJob noFaults
            ⟨"process_charge", ⟨"ch_1", "m_1", 500, "usd", "card",
              some "valid_token"⟩⟩ []).store "ch_1").map Charge.amount
        = some 500) :=
  ⟨rfl, rfl,
    valid_charge_settles_through_pending
      ⟨"ch_1", "m_1", 500, "usd", "card", some "valid_token"⟩ [] rfl rfl⟩

/-- Settlement of a job that throws in the `try` block before any write
(invalid source): the `catch` block inserts the `failed` row directly. -/
lemma processJob_invalid_eq (f : Faults) (d : JobData) (s : Store)
    (hsrc : sourceInvalid d.source = true)
    (hff : f.failedInsert = false)
    (hfresh : hasChargeId s d.id = false) :
    processJob f ⟨"process_charge", d⟩ s
      = ⟨[s ++ [chargeRow d "failed"]], s ++ [chargeRow d "failed"],
         .ok ()⟩ := by
  have hinsf : insertQuery false s (chargeRow d "failed")
      = .ok (s ++ [chargeRow d "failed"]) :=
    insertQuery_fresh s (chargeRow d "failed")
      (show hasChargeId s (chargeRow d "failed").id = false from hfresh)
  simp [processJob, hsrc, catchFailedInsert, hff, hinsf]

/-- Claim C2: a `process_charge` job whose source token is absent, empty,
or anything other than `valid_token` is recorded by a single direct insert
with status `failed`; the observable status sequence for the charge id is
`none → failed`, so the charge is never seen as `pending` at any point of
the run. -/
theorem invalid_source_fails_without_pending
    (d : JobData) (s : Store)
    (hsrc : d.source ≠ some "valid_token")
    (hfresh : hasChargeId s d.id = false) :
    processJob noFaults ⟨"process_charge", d⟩ s
      = ⟨[s ++ [chargeRow d "failed"]], s ++ [chargeRow d "failed"], .ok ()⟩
    ∧ (s :: (processJob noFaults ⟨"process_charge", d⟩ s).writes).map
        (fun st => statusOf st d.id)
      = [none, some "failed"]
    ∧ ∀ st ∈ s :: (processJob noFaults ⟨"process_charge", d⟩ s).writes,
        statusOf st d.id ≠ some "pending" := by
  have hsi : sourceInvalid d.source = true := (sourceInvalid_iff _).mpr hsrc
  have heq := processJob_invalid_eq noFaults d s hsi rfl hfresh
  have hwrites : (processJob noFaults ⟨"process_charge", d⟩ s).writes
      = [s ++ [chargeRow d "failed"]] := by
    rw [heq]
  have hs0 : statusOf s d.id = none := by
    simp [statusOf, findChargeById_not_present s d.id hfresh]
  have hs1 : statusOf (s ++ [chargeRow d "failed"]) d.id = some "failed" := by
    simp only [statusOf]
    rw [findChargeById_append s _ d.id hfresh,
      findChargeById_singleton _ _ (by simp [chargeRow])]
    simp [chargeRow]
  refine ⟨heq, ?_, ?_⟩
  · rw [hwrites]
    simp only [List.map_cons, List.map_nil]
    rw [hs0, hs1]
  · intro st hst
    rw [hwrites] at hst
    rcases List.mem_cons.mp hst with h1 | h1
    · rw [h1, hs0]; simp
    · rw [List.mem_singleton.mp h1, hs1]
      simp

/-- Witness for C2 at a concrete job (Scenario 2 of the spec). -/
theorem invalid_source_fails_without_pending_witness :
    (⟨"ch_2", "m_1", 500, "usd", "card", some "bad_token"⟩ : JobData).source
        ≠ some "valid_token"
    ∧ hasChargeId [] "ch_2" = false
    ∧ (processJob noFaults
          ⟨"process_charge", ⟨"ch_2", "m_1", 500, "usd", "card",
            some "bad_token"⟩⟩ []
        = ⟨[[] ++ [chargeRow
              ⟨"ch_2", "m_1", 500, "usd", "card", some "bad_token"⟩
              "failed"]],
           [] ++ [chargeRow
              ⟨"ch_2", "m_1", 500, "usd", "card", some "bad_token"⟩
              "failed"],
           .ok ()⟩
      ∧ (([] : Store) :: (processJob noFaults
            ⟨"process_charge", ⟨"ch_2", "m_1", 500, "usd", "card",
              some "bad_token"⟩⟩ []).writes).map
          (fun st => statusOf st "ch_2")
        = [none, some "failed"]
      ∧ ∀ st ∈ ([] : Store) :: (processJob noFaults
            ⟨"process_charge", ⟨"ch_2", "m_1", 500, "usd", "card",
              some "bad_token"⟩⟩ []).writes,
          statusOf st "ch_2" ≠ some "pending") :=
  ⟨by decide, rfl,
    invalid_source_fails_without_pending
      ⟨"ch_2", "m_1", 500, "usd", "card", some "bad_token"⟩ [] (by decide)
      rfl⟩

/-- The synchronous body of one `setInterval` tick of `startWorker`
(`src/utils/worker.js` lines 30-35): exactly one `dequeue`; if a job came
back it is dispatched to `processJob` without awaiting the returned
promise (fire-and-forget).  Returns the queue left for the next tick and
the list of jobs dispatched during this tick. -/
def workerTickDispatch (q : Queue) : Queue × List Job :=
  match dequeue q with
  | (none, q1) => (q1, [])
  | (some j, q1) => (q1, [j])

/-- One worker tick together with the eventual store effect of the
settlement it dispatched (the write lands asynchronously; this is the
store once that settlement has run). -/
def workerTick (f : Faults) (q : Queue) (s : Store) : Queue × Store :=
  match dequeue q with
  | (none, q1) => (q1, s)
  | (some j, q1) => (q1, (processJob f j s).store)

/-- Claim C8: `dequeue` on the empty queue signals "empty" (`none`) rather
than erroring, leaves the queue empty, and a worker tick that receives
this signal dispatches nothing and touches neither queue nor store; the
loop keeps ticking — a job enqueued after such an empty tick is processed
normally by a later tick. -/
theorem dequeue_empty_is_no_work (f : Faults) (s : Store) (j : Job) :
    dequeue [] = ((none : Option Job), ([] : Queue))
    ∧ workerTickDispatch [] = ([], [])
    ∧ workerTick f [] s = ([], s)
    ∧ workerTick f (enqueue (workerTick f [] s).1 j) (workerTick f [] s).2
        = ([], (processJob f j s).store) :=
  ⟨rfl, rfl, rfl, rfl⟩

/-- Claim C9: each worker tick attempts exactly one `dequeue` — the queue
it leaves is the tail after that single dequeue and at most one job (the
dequeued head, if any) is dispatched to the Settlement Procedure — and
dispatch is fire-and-forget: the queue the next tick sees is independent
of the store contents and of whether the dispatched settlement succeeds or
fails. -/
theorem worker_tick_single_dequeue_fire_and_forget
    (q : Queue) (f g : Faults) (s t : Store) :
    workerTickDispatch q = (q.tail, q.head?.toList)
    ∧ (workerTickDispatch q).2.length ≤ 1
    ∧ (workerTick f q s).1 = (dequeue q).2
    ∧ (workerTick f q s).1 = (workerTick g q t).1 := by
  cases q with
  | nil => exact ⟨rfl, by simp [workerTickDispatch, dequeue], rfl, rfl⟩
  | cons j q => exact ⟨rfl, by simp [workerTickDispatch, dequeue], rfl, rfl⟩

/-- Claim C10: a dequeued job whose `type` is not `process_charge` is
discarded: `processJob` performs no write (empty write list), returns the
store exactly as it was and raises no error, and a tick that dequeues such
a job just removes it from the queue. -/
theorem non_charge_job_is_discarded (f : Faults) (job : Job) (q : Queue)
    (s : Store) (h : job.type ≠ "process_charge") :
    processJob f job s = ⟨[], s, .ok ()⟩
    ∧ workerTick f (job :: q) s = (q, s) := by
  have hb : (job.type == "process_charge") = false := by
    simp [h]
  have hp : processJob f job s = ⟨[], s, .ok ()⟩ := by
    simp [processJob, hb]
  refine ⟨hp, ?_⟩
  simp [workerTick, dequeue, hp]

/-- Witness for C10 at a concrete non-charge job. -/
theorem non_charge_job_is_discarded_witness :
    ((⟨"send_email", ⟨"ch_9", "m_9", 1, "usd", "", none⟩⟩ : Job).type
        ≠ "process_charge")
    ∧ (processJob noFaults
          ⟨"send_email", ⟨"ch_9", "m_9", 1, "usd", "", none⟩⟩ []
        = ⟨[], [], .ok ()⟩
      ∧ workerTick noFaults
          [⟨"send_email", ⟨"ch_9", "m_9", 1, "usd", "", none⟩⟩] []
        = ([], [])) :=
  ⟨by decide,
    non_charge_job_is_discarded noFaults
      ⟨"send_email", ⟨"ch_9", "m_9", 1, "usd", "", none⟩⟩ [] [] (by decide)⟩

/-- Did the `processJob` promise resolve (`true`) or reject with an
uncaught error (`false`)? -/
def isOkResult : Except String Unit → Bool
  | .ok _ => true
  | .error _ => false

lemma statusOf_append_fresh (s : Store) (c : Charge) (id : String)
    (hfresh : hasChargeId s id = false) (hc : (c.id == id) = true) :
    statusOf (s ++ [c]) id = some c.status := by
  simp only [statusOf]
  rw [findChargeById_append s _ id hfresh, findChargeById_singleton _ _ hc]
  rfl

/-- Settlement of a valid-token job on a fresh id when the pending insert
itself fails (store unavailable): the thrown error is caught and the
`catch` block records the charge as `failed`. -/
lemma processJob_pendingFault_eq (d : JobData) (s : Store)
    (hsrc : sourceInvalid d.source = false)
    (hfresh : hasChargeId s d.id = false) :
    processJob ⟨true, false, false⟩ ⟨"process_charge", d⟩ s
      = ⟨[s ++ [chargeRow d "failed"]], s ++ [chargeRow d "failed"],
         .ok ()⟩ := by
  have hinsf : insertQuery false s (chargeRow d "failed")
      = .ok (s ++ [chargeRow d "failed"]) :=
    insertQuery_fresh s (chargeRow d "failed")
      (show hasChargeId s (chargeRow d "failed").id = false from hfresh)
  simp [processJob, hsrc, catchFailedInsert, hinsf,
    show insertQuery true s (chargeRow d "pending")
        = .error "store unavailable" from rfl]

/-- Settlement of a valid-token job on a fresh id when the status update
fails: the pending insert has already succeeded, so the `catch` fallback
insert of a `failed` row violates the `id` primary key; that second error
is not caught and escapes `processJob`, leaving the charge `pending`. -/
lemma processJob_updateFault_eq (d : JobData) (s : Store)
    (hsrc : sourceInvalid d.source = false)
    (hfresh : hasChargeId s d.id = false) :
    processJob ⟨false, true, false⟩ ⟨"process_charge", d⟩ s
      = ⟨[s ++ [chargeRow d "pending"]], s ++ [chargeRow d "pending"],
         .error "duplicate key violates primary key"⟩ := by
  have hins : insertQuery false s (chargeRow d "pending")
      = .ok (s ++ [chargeRow d "pending"]) :=
    insertQuery_fresh s (chargeRow d "pending")
      (show hasChargeId s (chargeRow d "pending").id = false from hfresh)
  have htaken : hasChargeId (s ++ [chargeRow d "pending"])
      (chargeRow d "failed").id = true := by
    simp [hasChargeId, chargeRow]
  have hdup : insertQuery false (s ++ [chargeRow d "pending"])
      (chargeRow d "failed")
      = .error "duplicate key violates primary key" := by
    simp [insertQuery, htaken]
  simp [processJob, hsrc, hins, catchFailedInsert, hdup,
    show updateStatusQuery true (s ++ [chargeRow d "pending"]) d.id
        "succeeded" = .error "store unavailable" from rfl]

/-- Counterexample to claim C3 as stated: settle the Scenario-1 job while
the status update fails.  The pending insert succeeds, the update throws,
and the `catch` fallback insert then violates the primary key — that error
is not caught, so `processJob` rejects (propagating the failure out of the
Settlement Procedure), and the charge stays `pending` instead of being
recorded as `failed`. -/
theorem settlement_error_escape_cex :
    isOkResult (processJob ⟨false, true, false⟩
        ⟨"process_charge", ⟨"ch_1", "m_1", 500, "usd", "card",
          some "valid_token"⟩⟩ []).result = false
    ∧ statusOf (processJob ⟨false, true, false⟩
        ⟨"process_charge", ⟨"ch_1", "m_1", 500, "usd", "card",
          some "valid_token"⟩⟩ []).store "ch_1" = some "pending"
    ∧ statusOf (processJob ⟨false, true, false⟩
        ⟨"process_charge", ⟨"ch_1", "m_1", 500, "usd", "card",
          some "valid_token"⟩⟩ []).store "ch_1" ≠ some "failed" := by
  decide

/-- Claim C3 (amended): errors thrown inside the `try` block are caught
and converted, best-effort, into a direct `failed` insert and the
procedure returns normally — this covers validation failure and failure of
the pending insert itself.  But when the pending insert has already
succeeded and the status update then fails, the fallback `failed` insert
violates the `charges` primary key, the error escapes the Settlement
Procedure uncaught, and the charge remains `pending`. -/
theorem settlement_failure_policy
    (d : JobData) (s : Store)
    (hfresh : hasChargeId s d.id = false) :
    (d.source ≠ some "valid_token" →
      (processJob noFaults ⟨"process_charge", d⟩ s).result = .ok ()
      ∧ statusOf (processJob noFaults ⟨"process_charge", d⟩ s).store d.id
          = some "failed")
    ∧ (d.source = some "valid_token" →
      (processJob ⟨true, false, false⟩ ⟨"process_charge", d⟩ s).result
          = .ok ()
      ∧ statusOf (processJob ⟨true, false, false⟩
          ⟨"process_charge", d⟩ s).store d.id = some "failed")
    ∧ (d.source = some "valid_token" →
      (processJob ⟨false, true, false⟩ ⟨"process_charge", d⟩ s).result
          = .error "duplicate key violates primary key"
      ∧ statusOf (processJob ⟨false, true, false⟩
          ⟨"process_charge", d⟩ s).store d.id = some "pending") := by
  refine ⟨fun h => ?_, fun h => ?_, fun h => ?_⟩
  · have heq := processJob_invalid_eq noFaults d s
      ((sourceInvalid_iff _).mpr h) rfl hfresh
    have hst : (processJob noFaults ⟨"process_charge", d⟩ s).store
        = s ++ [chargeRow d "failed"] := by rw [heq]
    refine ⟨by rw [heq], ?_⟩
    rw [hst, statusOf_append_fresh s _ d.id hfresh (by simp [chargeRow])]
    rfl
  · have hsi : sourceInvalid d.source = false := by rw [h]; decide
    have heq := processJob_pendingFault_eq d s hsi hfresh
    have hst : (processJob ⟨true, false, false⟩ ⟨"process_charge", d⟩
        s).store = s ++ [chargeRow d "failed"] := by rw [heq]
    refine ⟨by rw [heq], ?_⟩
    rw [hst, statusOf_append_fresh s _ d.id hfresh (by simp [chargeRow])]
    rfl
  · have hsi : sourceInvalid d.source = false := by rw [h]; decide
    have heq := processJob_updateFault_eq d s hsi hfresh
    have hst : (processJob ⟨false, true, false⟩ ⟨"process_charge", d⟩
        s).store = s ++ [chargeRow d "pending"] := by rw [heq]
    refine ⟨by rw [heq], ?_⟩
    rw [hst, statusOf_append_fresh s _ d.id hfresh (by simp [chargeRow])]
    rfl

/-- Witness for the amended C3 at the Scenario-1 job, exercising both the
caught pending-insert failure and the escaping update failure. -/
theorem settlement_failure_policy_witness :
    hasChargeId [] "ch_1" = false
    ∧ (⟨"ch_1", "m_1", 500, "usd", "card", some "valid_token"⟩
        : JobData).source = some "valid_token"
    ∧ (processJob ⟨true, false, false⟩
        ⟨"process_charge", ⟨"ch_1", "m_1", 500, "usd", "card",
          some "valid_token"⟩⟩ []).result = .ok ()
    ∧ statusOf (processJob ⟨true, false, false⟩
        ⟨"process_charge", ⟨"ch_1", "m_1", 500, "usd", "card",
          some "valid_token"⟩⟩ []).store "ch_1" = some "failed"
    ∧ (processJob ⟨false, true, false⟩
        ⟨"process_charge", ⟨"ch_1", "m_1", 500, "usd", "card",
          some "valid_token"⟩⟩ []).result
        = .error "duplicate key violates primary key"
    ∧ statusOf (processJob ⟨false, true, false⟩
        ⟨"process_charge", ⟨"ch_1", "m_1", 500, "usd", "card",
          some "valid_token"⟩⟩ []).store "ch_1" = some "pending" :=
  ⟨rfl, rfl,
    ((settlement_failure_policy
        ⟨"ch_1", "m_1", 500, "usd", "card", some "valid_token"⟩ []
        rfl).2.1 rfl).1,
    ((settlement_failure_policy
        ⟨"ch_1", "m_1", 500, "usd", "card", some "valid_token"⟩ []
        rfl).2.1 rfl).2,
    ((settlement_failure_policy
        ⟨"ch_1", "m_1", 500, "usd", "card", some "valid_token"⟩ []
        rfl).2.2 rfl).1,
    ((settlement_failure_policy
        ⟨"ch_1", "m_1", 500, "usd", "card", some "valid_token"⟩ []
        rfl).2.2 rfl).2⟩

/-- The validated body of a charge-creation request
(`amount`, `currency`, `source`, `description` in `router.post('/')`). -/
structure ChargeRequest where
  amount : Int
  currency : String
  source : Option String
  description : String
deriving Repr, DecidableEq

/-- The charge object the Facade synthesizes in `router.post('/')` of
`src/routes/charges.js`: id `ch_<uuid>`, the caller's merchant id, and
status `pending`. -/
def facadeCharge (rand mid : String) (req : ChargeRequest) : Charge :=
  { id := "ch_" ++ rand, merchant_id := mid, amount := req.amount,
    currency := req.currency, status := "pending",
    description := req.description, metadata := none }

/-- The job the Facade enqueues:
`{ type: 'process_charge', data: { ...charge, source } }`. -/
def facadeJob (rand mid : String) (req : ChargeRequest) : Job :=
  { type := "process_charge",
    data := { id := "ch_" ++ rand, merchant_id := mid,
              amount := req.amount, currency := req.currency,
              description := req.description, source := req.source } }

/-- The `router.post('/')` handler: synthesize the charge, enqueue the job, and answer
202 with the synthesized charge object.  The Charge Store is not
touched. -/
def createCharge (rand mid : String) (req : ChargeRequest) (q : Queue)
    (s : Store) : Charge × Queue × Store :=
  (facadeCharge rand mid req, enqueue q (facadeJob rand mid req), s)

/-- The `router.get('/:id')` handler: `SELECT * FROM charges WHERE id = $1
AND merchant_id = $2`, answering 404 (`none`) when no row matches. -/
def getCharge (s : Store) (id mid : String) : Option Charge :=
  s.find? (fun r => r.id == id && r.merchant_id == mid)

lemma getCharge_not_present (s : Store) (id mid : String)
    (h : hasChargeId s id = false) : getCharge s id mid = none := by
  induction s with
  | nil => rfl
  | cons c s ih =>
      rw [hasChargeId_cons, Bool.or_eq_false_iff] at h
      rw [getCharge, List.find?_cons_of_neg _ (by simp [h.1]), ← getCharge]
      exact ih h.2

lemma getCharge_append (s t : Store) (id mid : String)
    (h : hasChargeId s id = false) :
    getCharge (s ++ t) id mid = getCharge t id mid := by
  induction s with
  | nil => rfl
  | cons c s ih =>
      rw [hasChargeId_cons, Bool.or_eq_false_iff] at h
      rw [List.cons_append, getCharge,
        List.find?_cons_of_neg _ (by simp [h.1]), ← getCharge]
      exact ih h.2

lemma getCharge_singleton (c : Charge) (id mid : String)
    (h : (c.id == id && c.merchant_id == mid) = true) :
    getCharge [c] id mid = some c := by
  simp [getCharge, List.find?, h]

/-- Claim C6: charge creation immediately returns a `pending` charge whose
id is `ch_<random>`, enqueues the job, and writes nothing to the Charge
Store; a read of that charge before the worker's first insert is
not-found, and after the worker's pending insert the read returns the
stored row. -/
theorem facade_async_accept
    (rand mid : String) (req : ChargeRequest) (q : Queue) (s : Store)
    (hfresh : hasChargeId s ("ch_" ++ rand) = false) :
    (createCharge rand mid req q s).1.status = "pending"
    ∧ (createCharge rand mid req q s).1.id = "ch_" ++ rand
    ∧ (createCharge rand mid req q s).2.2 = s
    ∧ (createCharge rand mid req q s).2.1 = q ++ [facadeJob rand mid req]
    ∧ getCharge s ("ch_" ++ rand) mid = none
    ∧ insertQuery false s (chargeRow (facadeJob rand mid req).data "pending")
        = .ok (s ++ [chargeRow (facadeJob rand mid req).data "pending"])
    ∧ getCharge (s ++ [chargeRow (facadeJob rand mid req).data "pending"])
        ("ch_" ++ rand) mid
        = some (chargeRow (facadeJob rand mid req).data "pending") := by
  refine ⟨rfl, rfl, rfl, rfl, getCharge_not_present s _ mid hfresh, ?_, ?_⟩
  · exact insertQuery_fresh s _
      (show hasChargeId s
        (chargeRow (facadeJob rand mid req).data "pending").id = false
        from hfresh)
  · rw [getCharge_append s _ _ mid hfresh,
      getCharge_singleton _ _ _ (by simp [chargeRow, facadeJob])]

/-- Witness for C6 at a concrete charge-creation request. -/
theorem facade_async_accept_witness :
    hasChargeId [] ("ch_" ++ "42") = false
    ∧ ((createCharge "42" "m_1" ⟨500, "usd", some "tok_visa", "book"⟩ []
          []).1.status = "pending"
      ∧ (createCharge "42" "m_1" ⟨500, "usd", some "tok_visa", "book"⟩ []
          []).1.id = "ch_" ++ "42"
      ∧ (createCharge "42" "m_1" ⟨500, "usd", some "tok_visa", "book"⟩ []
          []).2.2 = []
      ∧ (createCharge "42" "m_1" ⟨500, "usd", some "tok_visa", "book"⟩ []
          []).2.1
        = [] ++ [facadeJob "42" "m_1" ⟨500, "usd", some "tok_visa", "book"⟩]
      ∧ getCharge [] ("ch_" ++ "42") "m_1" = none
      ∧ insertQuery false []
          (chargeRow (facadeJob "42" "m_1"
            ⟨500, "usd", some "tok_visa", "book"⟩).data "pending")
        = .ok ([] ++ [chargeRow (facadeJob "42" "m_1"
            ⟨500, "usd", some "tok_visa", "book"⟩).data "pending"])
      ∧ getCharge ([] ++ [chargeRow (facadeJob "42" "m_1"
            ⟨500, "usd", some "tok_visa", "book"⟩).data "pending"])
          ("ch_" ++ "42") "m_1"
        = some (chargeRow (facadeJob "42" "m_1"
            ⟨500, "usd", some "tok_visa", "book"⟩).data "pending")) :=
  ⟨rfl,
    facade_async_accept "42" "m_1" ⟨500, "usd", some "tok_visa", "book"⟩
      [] [] rfl⟩

/-- The `router.post('/:id')` metadata handler of `src/routes/charges.js`:
`UPDATE charges SET
metadata = $1 WHERE id = $2 AND merchant_id = $3 RETURNING *`. -/
def updateMetadataQuery (s : Store) (id mid md : String) : Store :=
  s.map (fun r =>
    if r.id == id && r.merchant_id == mid then { r with metadata := some md }
    else r)

/-- The HTTP outcome of `router.post('/:id/capture')`. -/
inductive CaptureResult where
  | notFound
  | badStatus
  | captured
deriving Repr, DecidableEq

/-- The `router.post('/:id/capture')` handler: select the charge scoped by id and
merchant (404 when absent), refuse with 400 unless its status is
`authorized`, otherwise `UPDATE charges SET status = 'captured' WHERE id =
$2 AND merchant_id = $3`. -/
def captureCharge (s : Store) (id mid : String) : Store × CaptureResult :=
  match getCharge s id mid with
  | none => (s, .notFound)
  | some r =>
      if r.status != "authorized" then (s, .badStatus)
      else
        (s.map (fun c =>
          if c.id == id && c.merchant_id == mid then
            { c with status := "captured" }
          else c),
         .captured)

/-- The creation-time fields of a row: everything except `status` and
`metadata`. -/
def chargeKey (r : Charge) : String × String × Int × String × String :=
  (r.id, r.merchant_id, r.amount, r.currency, r.description)

lemma map_chargeKey_if (s : Store) (p : Charge → Bool) (g : Charge → Charge)
    (hg : ∀ r, chargeKey (g r) = chargeKey r) :
    (s.map (fun r => if p r then g r else r)).map chargeKey
      = s.map chargeKey := by
  induction s with
  | nil => rfl
  | cons c s ih =>
      by_cases h : p c = true
      · simp only [List.map_cons, if_pos h, hg, ih]
      · simp only [List.map_cons, if_neg h, ih]

/-- Claim C7: once persisted, a charge's `id`, `merchant_id`, `amount` and
`currency` (and `description`) are never modified by any subsequent
operation: the worker's status update, the metadata update and the capture
update each preserve every row's creation-time fields — only `status` or
`metadata` change — and a successful insert appends a new row leaving all
existing rows untouched. -/
theorem charge_creation_fields_immutable :
    (∀ (s : Store) (id st : String),
      (updateWhereId s id st).map chargeKey = s.map chargeKey)
    ∧ (∀ (s : Store) (id mid md : String),
      (updateMetadataQuery s id mid md).map chargeKey = s.map chargeKey)
    ∧ (∀ (s : Store) (id mid : String),
      ((captureCharge s id mid).1).map chargeKey = s.map chargeKey)
    ∧ (∀ (fault : Bool) (s s1 : Store) (c : Charge),
      insertQuery fault s c = .ok s1 → s1 = s ++ [c]) := by
  refine ⟨?_, ?_, ?_, ?_⟩
  · intro s id st
    exact map_chargeKey_if s _ _ (fun r => rfl)
  · intro s id mid md
    exact map_chargeKey_if s _ _ (fun r => rfl)
  · intro s id mid
    rcases hcap : getCharge s id mid with _ | r
    · simp [captureCharge, hcap]
    · by_cases hst : (r.status != "authorized") = true
      · simp [captureCharge, hcap, hst]
      · rw [Bool.not_eq_true] at hst
        simp only [captureCharge, hcap, hst, Bool.false_eq_true, if_false]
        exact map_chargeKey_if s _ _ (fun r => rfl)
  · intro fault s s1 c h
    simp only [insertQuery] at h
    by_cases hf : fault = true
    · rw [if_pos hf] at h
      exact Except.noConfusion h
    · rw [Bool.not_eq_true] at hf
      rw [hf] at h
      simp only [Bool.false_eq_true, if_false] at h
      by_cases hid : hasChargeId s c.id = true
      · rw [if_pos hid] at h
        exact Except.noConfusion h
      · rw [Bool.not_eq_true] at hid
        rw [hid] at h
        simp only [Bool.false_eq_true, if_false] at h
        injection h with h
        exact h.symm

/-- Witness for C7: a concrete successful insert, named by the fourth
conjunct's hypothesis. -/
theorem charge_creation_fields_immutable_witness :
    insertQuery false [] ⟨"ch_1", "m_1", 500, "usd", "pending", "book", none⟩
      = .ok [⟨"ch_1", "m_1", 500, "usd", "pending", "book", none⟩]
    ∧ ([(⟨"ch_1", "m_1", 500, "usd", "pending", "book", none⟩ : Charge)]
        : Store)
      = [] ++ [⟨"ch_1", "m_1", 500, "usd", "pending", "book", none⟩] :=
  ⟨rfl,
    charge_creation_fields_immutable.2.2.2 false [] _
      ⟨"ch_1", "m_1", 500, "usd", "pending", "book", none⟩ rfl⟩

lemma filter_other_merchants_scoped (s : Store) (id mid : String)
    (g : Charge → Charge) (hg : ∀ r, (g r).merchant_id = r.merchant_id) :
    (s.map (fun r =>
        if r.id == id && r.merchant_id == mid then g r else r)).filter
      (fun r => r.merchant_id != mid)
      = s.filter (fun r => r.merchant_id != mid) := by
  induction s with
  | nil => rfl
  | cons c s ih =>
      by_cases hp : (c.id == id && c.merchant_id == mid) = true
      · have hmid : (c.merchant_id == mid) = true := by
          cases h2 : (c.merchant_id == mid)
          · rw [h2, Bool.and_false] at hp
            exact absurd hp (by simp)
          · rfl
        have h1 : ((g c).merchant_id != mid) = false := by
          simp [bne, hg, hmid]
        have h2 : (c.merchant_id != mid) = false := by
          simp [bne, hmid]
        simp only [List.map_cons, if_pos hp, List.filter_cons, h1, h2,
          Bool.false_eq_true, if_false, ih]
      · simp only [List.map_cons, if_neg hp, List.filter_cons]
        cases hcm : (c.merchant_id != mid) <;>
          simp only [Bool.false_eq_true, if_false, if_true, ih]

/-- Counterexample to claim C4 as stated: the Settlement Procedure's
status update (`UPDATE charges SET status = $1 WHERE id = $2`,
`src/utils/worker.js` line 20) filters on the charge id alone.  Applied to
a store whose only `ch_1` row belongs to merchant `m_B`, it rewrites that
row even for a job owned by merchant `m_A`, while the merchant-scoped
update the spec describes leaves the row unchanged. -/
theorem worker_update_not_merchant_scoped_cex :
    updateWhereId [⟨"ch_1", "m_B", 500, "usd", "pending", "book", none⟩]
        "ch_1" "succeeded"
      = [⟨"ch_1", "m_B", 500, "usd", "succeeded", "book", none⟩]
    ∧ updateStatusScopedSpec
        [⟨"ch_1", "m_B", 500, "usd", "pending", "book", none⟩]
        "ch_1" "m_A" "succeeded"
      = [⟨"ch_1", "m_B", 500, "usd", "pending", "book", none⟩]
    ∧ ("m_B" : String) ≠ "m_A" := by
  decide

/-- Claim C4 (amended): the Facade's charge read and its metadata and
capture writes are scoped by both the charge id and the merchant id, but
the Settlement Procedure's status update filters on the charge id alone;
nevertheless, in a fault-free settlement of a fresh charge id the update
modifies exactly the row the procedure just inserted — the row carrying
the job's id and merchant id — leaving every pre-existing row
unchanged. -/
theorem merchant_scoping
    (d : JobData) (s : Store) (id mid md : String)
    (hsrc : d.source = some "valid_token")
    (hfresh : hasChargeId s d.id = false) :
    (∀ c, getCharge s id mid = some c → c.id = id ∧ c.merchant_id = mid)
    ∧ (updateMetadataQuery s id mid md).filter
        (fun r => r.merchant_id != mid)
      = s.filter (fun r => r.merchant_id != mid)
    ∧ ((captureCharge s id mid).1).filter (fun r => r.merchant_id != mid)
      = s.filter (fun r => r.merchant_id != mid)
    ∧ (processJob noFaults ⟨"process_charge", d⟩ s).store
      = s ++ [{ chargeRow d "pending" with status := "succeeded" }]
    ∧ ({ chargeRow d "pending" with status := "succeeded" } : Charge).id
      = d.id
    ∧ ({ chargeRow d "pending" with
          status := "succeeded" } : Charge).merchant_id = d.merchant_id := by
  refine ⟨?_, ?_, ?_, ?_, rfl, rfl⟩
  · intro c hc
    rw [getCharge] at hc
    have hp := List.find?_some hc
    simpa using hp
  · exact filter_other_merchants_scoped s id mid _ (fun r => rfl)
  · rcases hcap : getCharge s id mid with _ | r
    · simp [captureCharge, hcap]
    · by_cases hst : (r.status != "authorized") = true
      · simp [captureCharge, hcap, hst]
      · rw [Bool.not_eq_true] at hst
        simp only [captureCharge, hcap, hst, Bool.false_eq_true, if_false]
        exact filter_other_merchants_scoped s id mid _ (fun r => rfl)
  · have hsi : sourceInvalid d.source = false := by rw [hsrc]; decide
    rw [processJob_valid_eq d s hsi hfresh]

/-- Witness for the amended C4 at concrete inputs. -/
theorem merchant_scoping_witness :
    (⟨"ch_1", "m_1", 500, "usd", "book", some "valid_token"⟩
        : JobData).source = some "valid_token"
    ∧ hasChargeId [⟨"ch_0", "m_B", 7, "eur", "succeeded", "x", none⟩]
        "ch_1" = false
    ∧ ((∀ c, getCharge [⟨"ch_0", "m_B", 7, "eur", "succeeded", "x", none⟩]
          "ch_0" "m_0" = some c → c.id = "ch_0" ∧ c.merchant_id = "m_0")
      ∧ (updateMetadataQuery
            [⟨"ch_0", "m_B", 7, "eur", "succeeded", "x", none⟩]
            "ch_0" "m_0" "memo").filter (fun r => r.merchant_id != "m_0")
        = [⟨"ch_0", "m_B", 7, "eur", "succeeded", "x", none⟩].filter
            (fun r => r.merchant_id != "m_0")
      ∧ ((captureCharge [⟨"ch_0", "m_B", 7, "eur", "succeeded", "x", none⟩]
            "ch_0" "m_0").1).filter (fun r => r.merchant_id != "m_0")
        = [⟨"ch_0", "m_B", 7, "eur", "succeeded", "x", none⟩].filter
            (fun r => r.merchant_id != "m_0")
      ∧ (processJob noFaults
            ⟨"process_charge",
              ⟨"ch_1", "m_1", 500, "usd", "book", some "valid_token"⟩⟩
            [⟨"ch_0", "m_B", 7, "eur", "succeeded", "x", none⟩]).store
        = [⟨"ch_0", "m_B", 7, "eur", "succeeded", "x", none⟩]
          ++ [{ chargeRow
                ⟨"ch_1", "m_1", 500, "usd", "book", some "valid_token"⟩
                "pending" with status := "succeeded" }]
      ∧ ({ chargeRow
            ⟨"ch_1", "m_1", 500, "usd", "book", some "valid_token"⟩
            "pending" with status := "succeeded" } : Charge).id = "ch_1"
      ∧ ({ chargeRow
            ⟨"ch_1", "m_1", 500, "usd", "book", some "valid_token"⟩
            "pending" with status := "succeeded" } : Charge).merchant_id
        = "m_1") :=
  ⟨rfl, rfl,
    merchant_scoping
      ⟨"ch_1", "m_1", 500, "usd", "book", some "valid_token"⟩
      [⟨"ch_0", "m_B", 7, "eur", "succeeded", "x", none⟩]
      "ch_0" "m_0" "memo" rfl rfl⟩

end PayWay
